import Mathlib

/-!
Verification development for the Blockstream ingestion script
(src/data-ingestion/blockstream_api.py).

The Python source is shallowly embedded: every definition below mirrors a
function or constant of the source file.  Time is measured in deciseconds
(tenths of a second) so that the float constant RATE_LIMIT_DELAY = 5.2 s
becomes the natural number 52; each `time.sleep(x)` call of the source is
one atomic sleep event of the corresponding duration.  HTTP responses are
abstracted to an oracle `Nat → HttpOutcome` giving the outcome of the
request issued on each loop attempt; the MinIO `put_object` call is
abstracted to an `Except` value saying whether the write raised.
-/

namespace BlockIngest

/-- Values flowing through the Python code: `None`, strings, ints and
opaque parsed-JSON dicts.  `pyToString` mirrors Python f-string
interpolation of such a value (f"{None}" is the text "None"). -/
inductive PyVal where
  | none
  | str (s : String)
  | int (n : Int)
  | obj
deriving DecidableEq

def pyToString : PyVal → String
  | PyVal.none => "None"
  | PyVal.str s => s
  | PyVal.int n => toString n
  | PyVal.obj => "object"

/-- Module-level constants of blockstream_api.py (delays in deciseconds). -/
def BASE_URL : String := "https://blockstream.info/api"

def RATE_LIMIT_DELAY : Nat := 52

def BATCH_SIZE : Nat := 15

def RETRY_DELAY_BASE : Nat := 4

def BURST_PROTECTION_DELAY : Nat := 100

def BURST_PROTECTION_INTERVAL : Nat := 50

def FEE_SAMPLE_INTERVAL : Nat := 144

def HISTORICAL_DAYS : Nat := 365

/-- Outcome of one HTTP request inside `fetch_data_with_retry`:
a 429 with an optional integer Retry-After header (seconds), a
`requests.exceptions.RequestException` (transport error or raised 5xx,
tagged by an opaque cause id), or a successfully parsed body. -/
inductive HttpOutcome where
  | throttled (retryAfter : Option Nat)
  | transportError (cause : Nat)
  | success (v : PyVal)
deriving DecidableEq

/-- How a call to `fetch_data_with_retry` ends: an explicit `return data`,
falling off the `for` loop (Python then implicitly returns `None`), or a
propagated exception (`raise`). -/
inductive FetchResult where
  | ok (v : PyVal)
  | exhausted
  | raised (cause : Nat)
deriving DecidableEq

/-- The value the caller receives: a raised exception is an error, both
explicit returns and the implicit `None` of an exhausted loop are ordinary
values. -/
def FetchResult.toCaller : FetchResult → Except Nat PyVal
  | FetchResult.ok v => Except.ok v
  | FetchResult.exhausted => Except.ok PyVal.none
  | FetchResult.raised c => Except.error c

/-- Observable events of one `fetch_data_with_retry` call, in order.
Each sleep constructor is a single atomic `time.sleep` call of the source
(durations in deciseconds); `request` is the `requests.get` issued on the
given attempt; `errorLog` is the terminal `logger.error` naming the
endpoint and the last cause before the re-raise. -/
inductive Event where
  | paceSleep (d : Nat)
  | request (attempt : Nat)
  | throttleSleep (d : Nat)
  | backoffSleep (d : Nat)
  | errorLog (endpoint : String) (cause : Nat)
deriving DecidableEq

/-- Lines 204-210 of the source: base pacing delay for an attempt, plus
the burst-protection extra when the `request_count` argument is a positive
multiple of `BURST_PROTECTION_INTERVAL`. -/
def paceDelay (attempt request_count : Nat) : Nat :=
  (if 0 < attempt then RATE_LIMIT_DELAY * 2 ^ attempt else RATE_LIMIT_DELAY) +
    (if 0 < request_count ∧ request_count % BURST_PROTECTION_INTERVAL = 0
      then BURST_PROTECTION_DELAY else 0)

/-- The body of `fetch_data_with_retry`'s `for attempt in range(max_retries)`
loop, structurally recursive on the number of remaining iterations
(`remaining` starts at `max_retries` with `attempt = 0`).  Mirrors lines
202-246 of the source: pace, issue the request, then on 429 sleep the
Retry-After hint (default 60 s) and `continue`; on a transport error sleep
`RETRY_DELAY_BASE ^ (attempt+1)` and continue unless this was the last
attempt, in which case log and re-raise; on success return the data. -/
def fetchAttempts (endpoint : String) (outcomes : Nat → HttpOutcome)
    (max_retries request_count : Nat) : Nat → Nat → FetchResult × List Event
  | 0, _ => (FetchResult.exhausted, [])
  | remaining + 1, attempt =>
      let pre := [Event.paceSleep (paceDelay attempt request_count), Event.request attempt]
      match outcomes attempt with
      | HttpOutcome.throttled ra =>
          let r := fetchAttempts endpoint outcomes max_retries request_count remaining (attempt + 1)
          (r.1, pre ++ Event.throttleSleep (10 * ra.getD 60) :: r.2)
      | HttpOutcome.success v => (FetchResult.ok v, pre)
      | HttpOutcome.transportError c =>
          if attempt < max_retries - 1 then
            let r := fetchAttempts endpoint outcomes max_retries request_count remaining (attempt + 1)
            (r.1, pre ++ Event.backoffSleep (10 * RETRY_DELAY_BASE ^ (attempt + 1)) :: r.2)
          else (FetchResult.raised c, pre ++ [Event.errorLog endpoint c])

/-- Lines 201-246 of the source.  The global `shutdown_requested` flag is
in scope in the Python function but is never read by it, so it does not
appear as an argument here (see `fetch_data_with_retry_with_flag`).
Default arguments follow the source (`max_retries=5, request_count=0`). -/
def fetch_data_with_retry (endpoint : String) (outcomes : Nat → HttpOutcome)
    (max_retries : Nat := 5) (request_count : Nat := 0) : FetchResult × List Event :=
  fetchAttempts endpoint outcomes max_retries request_count max_retries 0

/-- The same function with the ambient global `shutdown_requested` flag
made explicit as an argument.  The source never reads the flag inside
`fetch_data_with_retry`, so the argument is unused. -/
def fetch_data_with_retry_with_flag (shutdown_requested : Bool) (endpoint : String)
    (outcomes : Nat → HttpOutcome) (max_retries request_count : Nat) :
    FetchResult × List Event :=
  fetch_data_with_retry endpoint outcomes max_retries request_count

/-- Lines 252-254: `get_block_hash_by_height` calls `fetch_data_with_retry`
with the endpoint only, so `max_retries` and `request_count` take their
defaults 5 and 0. -/
def get_block_hash_by_height (height : Nat) (outcomes : Nat → HttpOutcome) :
    FetchResult × List Event :=
  fetch_data_with_retry (BASE_URL ++ "/block-height/" ++ toString height) outcomes 5 0

/-- Lines 256-258: endpoint is built by f-string interpolation of the
`block_hash` argument, whatever Python value it is. -/
def get_block_data (block_hash : PyVal) (outcomes : Nat → HttpOutcome) :
    FetchResult × List Event :=
  fetch_data_with_retry (BASE_URL ++ "/block/" ++ pyToString block_hash) outcomes 5 0

/-- Lines 260-262. -/
def get_fee_estimates (outcomes : Nat → HttpOutcome) : FetchResult × List Event :=
  fetch_data_with_retry (BASE_URL ++ "/fee-estimates") outcomes 5 0

/-- Lines 145-169: `save_to_minio` returns `True` when `put_object`
succeeds and catches any raised exception, returning `False`. -/
def save_to_minio (putResult : Except Nat Unit) : Bool :=
  match putResult with
  | Except.ok _ => true
  | Except.error _ => false

/-- Python `range(start, stop, step)` as an ascending list, for step ≥ 1. -/
def pyRange (start stop step : Nat) : List Nat :=
  (List.range ((stop - start + step - 1) / step)).map (fun k => start + step * k)

/-- Lines 268-299 of the source, with the chain-tip height obtained from
`get_current_block_height` and the constant `HISTORICAL_DAYS` made explicit
arguments.  Python's `max(1, current_height - blocks_per_period)` agrees
with the Nat version because a negative Python difference and the
truncated Nat difference both land below 1.  `sorted(setA - setB)` is
`Finset.sort` of the set difference. -/
def calculate_historical_ranges (current_height historical_days : Nat)
    (existing_block_heights existing_fee_heights : Finset Nat) :
    Nat × Nat × List Nat × List Nat :=
  let blocks_per_period := historical_days * 144
  let start_height := max 1 (current_height - blocks_per_period)
  let all_block_heights : Finset Nat :=
    (pyRange start_height (current_height + 1) 1).toFinset
  let blocks_to_collect :=
    (all_block_heights \ existing_block_heights).sort (fun a b => a ≤ b)
  let all_fee_sample_heights : Finset Nat :=
    (pyRange start_height (current_height + 1) FEE_SAMPLE_INTERVAL).toFinset
  let fee_heights_to_collect :=
    (all_fee_sample_heights \ existing_fee_heights).sort (fun a b => a ≤ b)
  (start_height, current_height, blocks_to_collect, fee_heights_to_collect)

/-- One checkpoint written through `save_progress_checkpoint`: the
`collected_data` dicts built at lines 337-342 and 438-443 (shutdown), 379-384
and 493-498 (periodic progress), and 416-422 and 528-534 (final). -/
inductive CkptData where
  | shutdownCkpt (lastCollectedHeight : Option Int) (collected failed remaining : Nat)
  | progressCkpt (lastCollectedHeight : Nat) (collected failed : Nat)
  | finalCkpt (collected failed requests : Nat) (completedGracefully : Bool)
deriving DecidableEq

/-- An API request issued by a collection loop, identified by which helper
was called and with what argument. -/
inductive ApiCall where
  | blockHash (h : Nat)
  | blockData (v : PyVal)
  | feeEstimates
deriving DecidableEq

/-- The endpoint URL each helper passes to `fetch_data_with_retry`. -/
def apiCallEndpoint : ApiCall → String
  | ApiCall.blockHash h => BASE_URL ++ "/block-height/" ++ toString h
  | ApiCall.blockData v => BASE_URL ++ "/block/" ++ pyToString v
  | ApiCall.feeEstimates => BASE_URL ++ "/fee-estimates"

/-- Mutable state of a historical collection loop: the global shutdown
flag as currently observed, the three counters, whether the loop has
exited (`break`), the checkpoints written so far, the heights whose
`save_to_minio` succeeded (objects actually present in the store), and the
API calls issued. -/
structure CollState where
  flag : Bool
  collected : Nat
  failed : Nat
  requests : Nat
  broke : Bool
  checkpoints : List CkptData
  persisted : List Nat
  calls : List ApiCall
deriving DecidableEq

def initState (flag0 : Bool) : CollState :=
  { flag := flag0, collected := 0, failed := 0, requests := 0, broke := false,
    checkpoints := [], persisted := [], calls := [] }

/-- Environment of one block-loop iteration: whether the shutdown signal
has arrived by each of the flag checks of that iteration (the flag is
monotone: once observed set it stays set), the HTTP outcomes of the two
fetches, and the result of the `put_object` call inside `save_to_minio`. -/
structure BlockIterEnv where
  sigAtStart : Bool
  hashOutcomes : Nat → HttpOutcome
  sigMid : Bool
  dataOutcomes : Nat → HttpOutcome
  savePut : Except Nat Unit
  sigBatch : Bool

/-- One iteration of the `for i, height in enumerate(blocks_to_collect)`
loop of `collect_historical_block_data` (lines 333-410): shutdown check
with checkpoint, the two API calls with a flag check between them,
`save_to_minio` with its result discarded, unconditional
`collected_count += 1`, the every-50 progress checkpoint, the
every-`BATCH_SIZE` interruptible pause, and the `except` branch counting a
failure and breaking once `failed_count > 20`. -/
def blockStep (total : Nat) (env : BlockIterEnv) (i h : Nat) (st : CollState) : CollState :=
  if st.broke then st
  else
    let flag0 := st.flag || env.sigAtStart
    if flag0 then
      { st with
        flag := flag0
        broke := true
        checkpoints := st.checkpoints ++
          [CkptData.shutdownCkpt (if 0 < i then some ((h : Int) - 1) else none)
            st.collected st.failed (total - i)] }
    else
      let requests := st.requests + 2
      let hashR := get_block_hash_by_height h env.hashOutcomes
      let calls1 := st.calls ++ [ApiCall.blockHash h]
      match hashR.1.toCaller with
      | Except.error _ =>
          let failed := st.failed + 1
          { st with
            flag := flag0
            requests := requests
            calls := calls1
            failed := failed
            broke := decide (20 < failed) }
      | Except.ok block_hash =>
          let flag1 := flag0 || env.sigMid
          if flag1 then
            { st with flag := flag1, requests := requests, calls := calls1, broke := true }
          else
            let dataR := get_block_data block_hash env.dataOutcomes
            let calls2 := calls1 ++ [ApiCall.blockData block_hash]
            match dataR.1.toCaller with
            | Except.error _ =>
                let failed := st.failed + 1
                { st with
                  flag := flag1
                  requests := requests
                  calls := calls2
                  failed := failed
                  broke := decide (20 < failed) }
            | Except.ok _block_data =>
                let persisted :=
                  if save_to_minio env.savePut then st.persisted ++ [h] else st.persisted
                let collected := st.collected + 1
                let ckpts1 :=
                  if (i + 1) % 50 = 0 then
                    st.checkpoints ++ [CkptData.progressCkpt h collected st.failed]
                  else st.checkpoints
                if collected % BATCH_SIZE = 0 then
                  let flag2 := flag1 || env.sigBatch
                  { flag := flag2
                    collected := collected
                    failed := st.failed
                    requests := requests
                    broke := flag2
                    checkpoints := ckpts1
                    persisted := persisted
                    calls := calls2 }
                else
                  { st with
                    flag := flag1
                    collected := collected
                    requests := requests
                    checkpoints := ckpts1
                    persisted := persisted
                    calls := calls2 }

/-- The enumerated loop itself, indexed from `i`. -/
def blockLoopGo (envs : Nat → BlockIterEnv) (total : Nat) :
    Nat → List Nat → CollState → CollState
  | _, [], st => st
  | i, h :: rest, st =>
      blockLoopGo envs total (i + 1) rest (blockStep total (envs i) i h st)

/-- Lines 323-424: run the loop over `blocks_to_collect` and then write
the final checkpoint, whose `completed_gracefully` field is the negation
of the shutdown flag as it stands at loop exit. -/
def collect_historical_block_data (envs : Nat → BlockIterEnv) (flag0 : Bool)
    (blocks_to_collect : List Nat) : CollState :=
  let st := blockLoopGo envs blocks_to_collect.length 0 blocks_to_collect (initState flag0)
  { st with checkpoints := st.checkpoints ++
      [CkptData.finalCkpt st.collected st.failed st.requests (!st.flag)] }

/-- Environment of one fee-loop iteration (three fetches, three extra flag
checks). -/
structure FeeIterEnv where
  sigAtStart : Bool
  feeOutcomes : Nat → HttpOutcome
  sigMid1 : Bool
  hashOutcomes : Nat → HttpOutcome
  sigMid2 : Bool
  dataOutcomes : Nat → HttpOutcome
  savePut : Except Nat Unit
  sigBatch : Bool

/-- One iteration of the fee loop (lines 434-522).  The record built at
lines 465-478 calls `block_data.get(...)`, which raises unless the fetched
block data is a dict; that raise is caught by the same `except` branch.
The shutdown checkpoint records `height - FEE_SAMPLE_INTERVAL`, the
progress cadence is 20, the batch pause fires every 30 collected points,
and the failure ceiling is `failed_count > 10`. -/
def feeStep (total : Nat) (env : FeeIterEnv) (i h : Nat) (st : CollState) : CollState :=
  if st.broke then st
  else
    let flag0 := st.flag || env.sigAtStart
    if flag0 then
      { st with
        flag := flag0
        broke := true
        checkpoints := st.checkpoints ++
          [CkptData.shutdownCkpt
            (if 0 < i then some ((h : Int) - FEE_SAMPLE_INTERVAL) else none)
            st.collected st.failed (total - i)] }
    else
      let requests := st.requests + 3
      let feeR := get_fee_estimates env.feeOutcomes
      let calls1 := st.calls ++ [ApiCall.feeEstimates]
      match feeR.1.toCaller with
      | Except.error _ =>
          let failed := st.failed + 1
          { st with
            flag := flag0
            requests := requests
            calls := calls1
            failed := failed
            broke := decide (10 < failed) }
      | Except.ok _fee_estimates =>
          let flag1 := flag0 || env.sigMid1
          if flag1 then
            { st with flag := flag1, requests := requests, calls := calls1, broke := true }
          else
            let hashR := get_block_hash_by_height h env.hashOutcomes
            let calls2 := calls1 ++ [ApiCall.blockHash h]
            match hashR.1.toCaller with
            | Except.error _ =>
                let failed := st.failed + 1
                { st with
                  flag := flag1
                  requests := requests
                  calls := calls2
                  failed := failed
                  broke := decide (10 < failed) }
            | Except.ok block_hash =>
                let flag2 := flag1 || env.sigMid2
                if flag2 then
                  { st with
                    flag := flag2
                    requests := requests
                    calls := calls2
                    broke := true }
                else
                  let dataR := get_block_data block_hash env.dataOutcomes
                  let calls3 := calls2 ++ [ApiCall.blockData block_hash]
                  match dataR.1.toCaller with
                  | Except.error _ =>
                      let failed := st.failed + 1
                      { st with
                        flag := flag2
                        requests := requests
                        calls := calls3
                        failed := failed
                        broke := decide (10 < failed) }
                  | Except.ok block_data =>
                      match block_data with
                      | PyVal.obj =>
                          let persisted :=
                            if save_to_minio env.savePut then st.persisted ++ [h]
                            else st.persisted
                          let collected := st.collected + 1
                          let ckpts1 :=
                            if (i + 1) % 20 = 0 then
                              st.checkpoints ++
                                [CkptData.progressCkpt h collected st.failed]
                            else st.checkpoints
                          if collected % 30 = 0 then
                            let flag3 := flag2 || env.sigBatch
                            { flag := flag3
                              collected := collected
                              failed := st.failed
                              requests := requests
                              broke := flag3
                              checkpoints := ckpts1
                              persisted := persisted
                              calls := calls3 }
                          else
                            { st with
                              flag := flag2
                              collected := collected
                              requests := requests
                              checkpoints := ckpts1
                              persisted := persisted
                              calls := calls3 }
                      | _ =>
                          let failed := st.failed + 1
                          { st with
                            flag := flag2
                            requests := requests
                            calls := calls3
                            failed := failed
                            broke := decide (10 < failed) }

def feeLoopGo (envs : Nat → FeeIterEnv) (total : Nat) :
    Nat → List Nat → CollState → CollState
  | _, [], st => st
  | i, h :: rest, st =>
      feeLoopGo envs total (i + 1) rest (feeStep total (envs i) i h st)

/-- Lines 426-536: the fee loop with its final checkpoint. -/
def collect_historical_fee_data (envs : Nat → FeeIterEnv) (flag0 : Bool)
    (fee_heights_to_collect : List Nat) : CollState :=
  let st := feeLoopGo envs fee_heights_to_collect.length 0 fee_heights_to_collect
    (initState flag0)
  { st with checkpoints := st.checkpoints ++
      [CkptData.finalCkpt st.collected st.failed st.requests (!st.flag)] }

/-- Number of HTTP requests recorded in an event trace. -/
def numRequests : List Event → Nat
  | [] => 0
  | Event.request _ :: es => numRequests es + 1
  | _ :: es => numRequests es

/-- Suffix of a trace strictly after its (k+1)-th `request` event. -/
def afterRequest : Nat → List Event → List Event
  | _, [] => []
  | 0, Event.request _ :: es => es
  | k + 1, Event.request _ :: es => afterRequest k es
  | k, _ :: es => afterRequest k es

/-- Total sleep duration before the next `request` event of a trace. -/
def sleepsUntilRequest : List Event → Nat
  | [] => 0
  | Event.request _ :: _ => 0
  | Event.paceSleep d :: es => d + sleepsUntilRequest es
  | Event.throttleSleep d :: es => d + sleepsUntilRequest es
  | Event.backoffSleep d :: es => d + sleepsUntilRequest es
  | Event.errorLog _ _ :: es => sleepsUntilRequest es

/-- Wall-clock separation between the k-th and (k+1)-th requests of a
trace: the sum of all sleeps performed between them. -/
def gap (es : List Event) (k : Nat) : Nat :=
  sleepsUntilRequest (afterRequest k es)

lemma mem_pyRange {start stop step x : Nat} (hstep : 0 < step) :
    x ∈ pyRange start stop step ↔ ∃ k, x = start + step * k ∧ x < stop := by
  unfold pyRange
  simp only [List.mem_map, List.mem_range]
  constructor
  · rintro ⟨k, hk, rfl⟩
    refine ⟨k, rfl, ?_⟩
    have h2 : (k + 1) * step ≤ stop - start + step - 1 :=
      (Nat.le_div_iff_mul_le hstep).mp hk
    have h3 : (k + 1) * step = step * k + step := by ring
    rw [h3] at h2
    set m := step * k with hm
    omega
  · rintro ⟨k, rfl, hlt⟩
    refine ⟨k, ?_, rfl⟩
    have h2 : (k + 1) * step ≤ stop - start + step - 1 := by
      have h3 : (k + 1) * step = step * k + step := by ring
      rw [h3]
      set m := step * k with hm
      omega
    exact (Nat.le_div_iff_mul_le hstep).mpr h2

lemma pyRange_one_mem {start stop x : Nat} :
    x ∈ pyRange start stop 1 ↔ start ≤ x ∧ x < stop := by
  rw [mem_pyRange (by norm_num)]
  constructor
  · rintro ⟨k, rfl, hlt⟩
    omega
  · rintro ⟨hle, hlt⟩
    exact ⟨x - start, by omega, hlt⟩

/-- C1.  The Range Planner returns `startUnit = max(1, H - 144*D)`, the end
cursor `H`, the block to-do list equal to the interval `{startUnit..H}`
minus the completed-block set, the fee to-do list equal to the strided set
`{startUnit, startUnit+144, ...} ∩ {.. ≤ H}` minus the completed-fee set,
and both lists are duplicate-free and strictly ascending. -/
theorem claim1 (H D : Nat) (B F : Finset Nat) :
    (calculate_historical_ranges H D B F).1 = max 1 (H - 144 * D) ∧
    (calculate_historical_ranges H D B F).2.1 = H ∧
    (∀ x, x ∈ (calculate_historical_ranges H D B F).2.2.1 ↔
      ((calculate_historical_ranges H D B F).1 ≤ x ∧ x ≤ H ∧ x ∉ B)) ∧
    (∀ x, x ∈ (calculate_historical_ranges H D B F).2.2.2 ↔
      ((∃ k, x = (calculate_historical_ranges H D B F).1 + 144 * k) ∧ x ≤ H ∧ x ∉ F)) ∧
    List.Sorted (fun a b => a < b) (calculate_historical_ranges H D B F).2.2.1 ∧
    (calculate_historical_ranges H D B F).2.2.1.Nodup ∧
    List.Sorted (fun a b => a < b) (calculate_historical_ranges H D B F).2.2.2 ∧
    (calculate_historical_ranges H D B F).2.2.2.Nodup := by
  refine ⟨by simp [calculate_historical_ranges, Nat.mul_comm], rfl, ?_, ?_, ?_, ?_, ?_, ?_⟩
  · intro x
    simp only [calculate_historical_ranges, Finset.mem_sort, Finset.mem_sdiff,
      List.mem_toFinset, pyRange_one_mem]
    constructor
    · rintro ⟨⟨h1, h2⟩, h3⟩
      exact ⟨h1, by omega, h3⟩
    · rintro ⟨h1, h2, h3⟩
      exact ⟨⟨h1, by omega⟩, h3⟩
  · intro x
    simp only [calculate_historical_ranges, Finset.mem_sort, Finset.mem_sdiff,
      List.mem_toFinset, mem_pyRange (show 0 < FEE_SAMPLE_INTERVAL by norm_num [FEE_SAMPLE_INTERVAL])]
    constructor
    · rintro ⟨⟨k, rfl, hlt⟩, hF⟩
      exact ⟨⟨k, by norm_num [FEE_SAMPLE_INTERVAL]⟩, by omega, hF⟩
    · rintro ⟨⟨k, rfl⟩, hle, hF⟩
      exact ⟨⟨k, by norm_num [FEE_SAMPLE_INTERVAL], by omega⟩, hF⟩
  · exact Finset.sort_sorted_lt _
  · exact Finset.sort_nodup _ _
  · exact Finset.sort_sorted_lt _
  · exact Finset.sort_nodup _ _

section FetchLemmas

variable {ep : String} {o : Nat → HttpOutcome} {mr rc : Nat}

lemma fetchAttempts_throttled {att rem : Nat} {ra : Option Nat}
    (h : o att = HttpOutcome.throttled ra) :
    fetchAttempts ep o mr rc (rem + 1) att =
      ((fetchAttempts ep o mr rc rem (att + 1)).1,
        Event.paceSleep (paceDelay att rc) :: Event.request att ::
          Event.throttleSleep (10 * ra.getD 60) ::
          (fetchAttempts ep o mr rc rem (att + 1)).2) := by
  simp [fetchAttempts, h]

lemma fetchAttempts_success {att rem : Nat} {v : PyVal}
    (h : o att = HttpOutcome.success v) :
    fetchAttempts ep o mr rc (rem + 1) att =
      (FetchResult.ok v,
        [Event.paceSleep (paceDelay att rc), Event.request att]) := by
  simp [fetchAttempts, h]

lemma fetchAttempts_error_cont {att rem c : Nat}
    (h : o att = HttpOutcome.transportError c) (hc : att < mr - 1) :
    fetchAttempts ep o mr rc (rem + 1) att =
      ((fetchAttempts ep o mr rc rem (att + 1)).1,
        Event.paceSleep (paceDelay att rc) :: Event.request att ::
          Event.backoffSleep (10 * RETRY_DELAY_BASE ^ (att + 1)) ::
          (fetchAttempts ep o mr rc rem (att + 1)).2) := by
  simp [fetchAttempts, h, if_pos hc]

lemma fetchAttempts_error_last {att rem c : Nat}
    (h : o att = HttpOutcome.transportError c) (hc : ¬ att < mr - 1) :
    fetchAttempts ep o mr rc (rem + 1) att =
      (FetchResult.raised c,
        [Event.paceSleep (paceDelay att rc), Event.request att,
          Event.errorLog ep c]) := by
  simp [fetchAttempts, h, if_neg hc]

lemma sleepsUntilRequest_fetch {rem att : Nat} (hrem : 0 < rem) :
    sleepsUntilRequest (fetchAttempts ep o mr rc rem att).2 = paceDelay att rc := by
  obtain ⟨r2, rfl⟩ : ∃ r2, rem = r2 + 1 := ⟨rem - 1, by omega⟩
  cases ho : o att with
  | throttled ra => rw [fetchAttempts_throttled ho]; rfl
  | transportError c =>
      by_cases hc : att < mr - 1
      · rw [fetchAttempts_error_cont ho hc]; rfl
      · rw [fetchAttempts_error_last ho hc]; rfl
  | success v => rw [fetchAttempts_success ho]; rfl

lemma afterRequest_pace {k d : Nat} {l : List Event} :
    afterRequest k (Event.paceSleep d :: l) = afterRequest k l := by
  cases k <;> rfl

lemma afterRequest_backoff {k d : Nat} {l : List Event} :
    afterRequest k (Event.backoffSleep d :: l) = afterRequest k l := by
  cases k <;> rfl

lemma afterRequest_throttle {k d : Nat} {l : List Event} :
    afterRequest k (Event.throttleSleep d :: l) = afterRequest k l := by
  cases k <;> rfl

lemma afterRequest_zero_request {a : Nat} {l : List Event} :
    afterRequest 0 (Event.request a :: l) = l := rfl

lemma afterRequest_succ_request {k a : Nat} {l : List Event} :
    afterRequest (k + 1) (Event.request a :: l) = afterRequest k l := rfl

lemma fetch_err_raised {c : Nat → Nat}
    (hall : ∀ i, o i = HttpOutcome.transportError (c i)) :
    ∀ rem att, att + rem = mr → 0 < rem →
      (fetchAttempts ep o mr rc rem att).1 = FetchResult.raised (c (mr - 1)) := by
  intro rem
  induction rem with
  | zero => intro att h1 h2; omega
  | succ r ih =>
      intro att hsum _
      by_cases hc : att < mr - 1
      · rw [fetchAttempts_error_cont (hall att) hc]
        exact ih (att + 1) (by omega) (by omega)
      · rw [fetchAttempts_error_last (hall att) hc]
        have hat : att = mr - 1 := by omega
        rw [hat]

lemma fetch_err_numRequests {c : Nat → Nat}
    (hall : ∀ i, o i = HttpOutcome.transportError (c i)) :
    ∀ rem att, att + rem = mr →
      numRequests (fetchAttempts ep o mr rc rem att).2 = rem := by
  intro rem
  induction rem with
  | zero => intro att _; rfl
  | succ r ih =>
      intro att hsum
      by_cases hc : att < mr - 1
      · rw [fetchAttempts_error_cont (hall att) hc]
        show numRequests (Event.paceSleep _ :: Event.request _ :: Event.backoffSleep _ ::
          (fetchAttempts ep o mr rc r (att + 1)).2) = r + 1
        show numRequests (fetchAttempts ep o mr rc r (att + 1)).2 + 1 = r + 1
        rw [ih (att + 1) (by omega)]
      · rw [fetchAttempts_error_last (hall att) hc]
        have : r = 0 := by omega
        rw [this]
        rfl

lemma fetch_err_errorLog {c : Nat → Nat}
    (hall : ∀ i, o i = HttpOutcome.transportError (c i)) :
    ∀ rem att, att + rem = mr → 0 < rem →
      Event.errorLog ep (c (mr - 1)) ∈ (fetchAttempts ep o mr rc rem att).2 := by
  intro rem
  induction rem with
  | zero => intro att h1 h2; omega
  | succ r ih =>
      intro att hsum _
      by_cases hc : att < mr - 1
      · rw [fetchAttempts_error_cont (hall att) hc]
        have := ih (att + 1) (by omega) (by omega)
        simp only [List.mem_cons]
        tauto
      · rw [fetchAttempts_error_last (hall att) hc]
        have hat : att = mr - 1 := by omega
        rw [hat]
        simp

lemma fetch_err_gap {c : Nat → Nat}
    (hall : ∀ i, o i = HttpOutcome.transportError (c i)) :
    ∀ k rem att, att + rem = mr → att + k + 1 < mr →
      gap (fetchAttempts ep o mr rc rem att).2 k =
        10 * RETRY_DELAY_BASE ^ (att + k + 1) + paceDelay (att + k + 1) rc := by
  intro k
  induction k with
  | zero =>
      intro rem att hsum hlt
      obtain ⟨r2, rfl⟩ : ∃ r2, rem = r2 + 1 := ⟨rem - 1, by omega⟩
      rw [gap, fetchAttempts_error_cont (hall att) (by omega)]
      show sleepsUntilRequest (afterRequest 0 (Event.paceSleep _ :: Event.request _ ::
        Event.backoffSleep _ :: (fetchAttempts ep o mr rc r2 (att + 1)).2)) = _
      rw [afterRequest_pace, afterRequest_zero_request]
      show 10 * RETRY_DELAY_BASE ^ (att + 1) +
        sleepsUntilRequest (fetchAttempts ep o mr rc r2 (att + 1)).2 = _
      rw [sleepsUntilRequest_fetch (by omega)]
  | succ k ih =>
      intro rem att hsum hlt
      obtain ⟨r2, rfl⟩ : ∃ r2, rem = r2 + 1 := ⟨rem - 1, by omega⟩
      rw [gap, fetchAttempts_error_cont (hall att) (by omega)]
      rw [afterRequest_pace, afterRequest_succ_request, afterRequest_backoff]
      have := ih r2 (att + 1) (by omega) (by omega)
      rw [gap] at this
      rw [show att + 1 + k + 1 = att + (k + 1) + 1 by omega] at this
      exact this

lemma fetch_thr_exhausted {r : Nat → Option Nat}
    (hall : ∀ i, o i = HttpOutcome.throttled (r i)) :
    ∀ rem att, (fetchAttempts ep o mr rc rem att).1 = FetchResult.exhausted := by
  intro rem
  induction rem with
  | zero => intro att; rfl
  | succ n ih =>
      intro att
      rw [fetchAttempts_throttled (hall att)]
      exact ih (att + 1)

lemma fetch_thr_numRequests {r : Nat → Option Nat}
    (hall : ∀ i, o i = HttpOutcome.throttled (r i)) :
    ∀ rem att, numRequests (fetchAttempts ep o mr rc rem att).2 = rem := by
  intro rem
  induction rem with
  | zero => intro att; rfl
  | succ n ih =>
      intro att
      rw [fetchAttempts_throttled (hall att)]
      show numRequests (fetchAttempts ep o mr rc n (att + 1)).2 + 1 = n + 1
      rw [ih (att + 1)]

lemma fetch_thr_sleep_mem {r : Nat → Option Nat}
    (hall : ∀ i, o i = HttpOutcome.throttled (r i)) :
    ∀ rem att a, att ≤ a → a < att + rem →
      Event.throttleSleep (10 * (r a).getD 60) ∈ (fetchAttempts ep o mr rc rem att).2 := by
  intro rem
  induction rem with
  | zero => intro att a h1 h2; omega
  | succ n ih =>
      intro att a h1 h2
      rw [fetchAttempts_throttled (hall att)]
      simp only [List.mem_cons]
      by_cases ha : a = att
      · subst ha; tauto
      · have := ih (att + 1) a (by omega) (by omega)
        tauto

lemma paceDelay_lower (att rcnt : Nat) : RATE_LIMIT_DELAY ≤ paceDelay att rcnt := by
  unfold paceDelay
  have h1 : RATE_LIMIT_DELAY ≤
      (if 0 < att then RATE_LIMIT_DELAY * 2 ^ att else RATE_LIMIT_DELAY) := by
    split
    · have h2 : (1 : Nat) ≤ 2 ^ att := Nat.one_le_two_pow
      calc RATE_LIMIT_DELAY = RATE_LIMIT_DELAY * 1 := by ring
        _ ≤ RATE_LIMIT_DELAY * 2 ^ att := Nat.mul_le_mul_left _ h2
    · exact le_refl _
  omega

lemma fetch_pace_lower :
    ∀ rem att d, Event.paceSleep d ∈ (fetchAttempts ep o mr rc rem att).2 →
      RATE_LIMIT_DELAY ≤ d := by
  intro rem
  induction rem with
  | zero => intro att d h; simp [fetchAttempts] at h
  | succ n ih =>
      intro att d h
      cases ho : o att with
      | throttled ra =>
          rw [fetchAttempts_throttled ho] at h
          simp at h
          rcases h with h | h
          · subst h; exact paceDelay_lower _ _
          · exact ih (att + 1) d h
      | transportError c =>
          by_cases hc : att < mr - 1
          · rw [fetchAttempts_error_cont ho hc] at h
            simp at h
            rcases h with h | h
            · subst h; exact paceDelay_lower _ _
            · exact ih (att + 1) d h
          · rw [fetchAttempts_error_last ho hc] at h
            simp at h
            subst h
            exact paceDelay_lower _ _
      | success v =>
          rw [fetchAttempts_success ho] at h
          simp at h
          subst h
          exact paceDelay_lower _ _

end FetchLemmas

/-- C2 counterexample.  With an attempt budget of 1, a first attempt that
is throttled (429, Retry-After 5) and a success available on the very next
attempt, the code sleeps 5 s but exits the loop with the implicit `None`
after exactly one request: the throttled attempt consumed the only
`max_retries` slot, so it was counted against the budget, contradicting
the claim that throttled attempts do not count. -/
theorem claim2_cx :
    fetch_data_with_retry "e"
      (fun a => if a = 0 then HttpOutcome.throttled (some 5)
        else HttpOutcome.success (PyVal.int 3)) 1 0 =
      (FetchResult.exhausted,
        [Event.paceSleep 52, Event.request 0, Event.throttleSleep 50]) ∧
    (fetch_data_with_retry "e"
      (fun a => if a = 0 then HttpOutcome.throttled (some 5)
        else HttpOutcome.success (PyVal.int 3)) 1 0).1 ≠
      FetchResult.ok (PyVal.int 3) := by
  decide

/-- C2 amended.  On a 429 the client sleeps ten times the deciseconds of
the Retry-After hint (600 ds = 60 s when the header is absent) and
retries, but the throttled attempt does count toward `max_retries`: when
every attempt is throttled the loop performs exactly `max_retries`
requests, sleeps the hint after each, and then falls off the loop
returning the implicit `None`. -/
theorem claim2_amended (ep : String) (o : Nat → HttpOutcome) (r : Nat → Option Nat)
    (mr rc : Nat) (hall : ∀ i, o i = HttpOutcome.throttled (r i)) :
    (fetch_data_with_retry ep o mr rc).1 = FetchResult.exhausted ∧
    numRequests (fetch_data_with_retry ep o mr rc).2 = mr ∧
    ∀ a, a < mr →
      Event.throttleSleep (10 * (r a).getD 60) ∈ (fetch_data_with_retry ep o mr rc).2 := by
  refine ⟨fetch_thr_exhausted hall mr 0, fetch_thr_numRequests hall mr 0, ?_⟩
  intro a ha
  exact fetch_thr_sleep_mem hall mr 0 a (by omega) (by omega)

theorem claim2_amended_witness :
    (fetch_data_with_retry "e"
      (fun i => HttpOutcome.throttled (if i = 0 then some 5 else none)) 2 0).1 =
      FetchResult.exhausted ∧
    numRequests (fetch_data_with_retry "e"
      (fun i => HttpOutcome.throttled (if i = 0 then some 5 else none)) 2 0).2 = 2 ∧
    ∀ a, a < 2 →
      Event.throttleSleep (10 * ((if a = 0 then some 5 else none) : Option Nat).getD 60) ∈
        (fetch_data_with_retry "e"
          (fun i => HttpOutcome.throttled (if i = 0 then some 5 else none)) 2 0).2 :=
  claim2_amended "e" _ (fun i => if i = 0 then some 5 else none) 2 0 (fun _ => rfl)

/-- C4.  When every attempt fails with a transport or 5xx error the client
makes exactly `max_retries` requests; the wall-clock separation between
consecutive requests (backoff sleep plus the next attempt's pacing sleep)
is strictly increasing; and the call ends with the exception re-raised
after an error log naming the endpoint and the last cause. -/
theorem claim4 (ep : String) (o : Nat → HttpOutcome) (c : Nat → Nat) (mr rc : Nat)
    (hall : ∀ i, o i = HttpOutcome.transportError (c i)) (hmr : 0 < mr) :
    (fetch_data_with_retry ep o mr rc).1 = FetchResult.raised (c (mr - 1)) ∧
    numRequests (fetch_data_with_retry ep o mr rc).2 = mr ∧
    Event.errorLog ep (c (mr - 1)) ∈ (fetch_data_with_retry ep o mr rc).2 ∧
    ∀ k, k + 2 < mr →
      gap (fetch_data_with_retry ep o mr rc).2 k <
        gap (fetch_data_with_retry ep o mr rc).2 (k + 1) := by
  refine ⟨fetch_err_raised hall mr 0 (by omega) hmr,
    fetch_err_numRequests hall mr 0 (by omega),
    fetch_err_errorLog hall mr 0 (by omega) hmr, ?_⟩
  intro k hk
  have g1 := @fetch_err_gap ep o mr rc c hall k mr 0 (by omega) (by omega)
  have g2 := @fetch_err_gap ep o mr rc c hall (k + 1) mr 0 (by omega) (by omega)
  show gap (fetchAttempts ep o mr rc mr 0).2 k < gap (fetchAttempts ep o mr rc mr 0).2 (k + 1)
  rw [g1, g2]
  simp only [Nat.zero_add]
  have e1 : paceDelay (k + 1) rc = RATE_LIMIT_DELAY * 2 ^ (k + 1) +
      (if 0 < rc ∧ rc % BURST_PROTECTION_INTERVAL = 0 then BURST_PROTECTION_DELAY else 0) := by
    unfold paceDelay
    rw [if_pos (by omega)]
  have e2 : paceDelay (k + 1 + 1) rc = RATE_LIMIT_DELAY * 2 ^ (k + 2) +
      (if 0 < rc ∧ rc % BURST_PROTECTION_INTERVAL = 0 then BURST_PROTECTION_DELAY else 0) := by
    unfold paceDelay
    rw [if_pos (by omega)]
  rw [e1, e2]
  have hR : RETRY_DELAY_BASE = 4 := rfl
  have hL : RATE_LIMIT_DELAY = 52 := rfl
  rw [hR, hL, show k + 1 + 1 = k + 2 by omega, pow_succ 4 (k + 1), pow_succ 2 (k + 1)]
  have ha : 0 < 4 ^ (k + 1) := pow_pos (by norm_num) _
  have hb : 0 < 2 ^ (k + 1) := pow_pos (by norm_num) _
  set a := (4 : Nat) ^ (k + 1) with hadef
  set b := (2 : Nat) ^ (k + 1) with hbdef
  set e := (if 0 < rc ∧ rc % BURST_PROTECTION_INTERVAL = 0 then BURST_PROTECTION_DELAY else 0)
    with hedef
  omega

theorem claim4_witness :
    (fetch_data_with_retry "e" (fun i => HttpOutcome.transportError (i + 1)) 3 0).1 =
      FetchResult.raised 3 ∧
    numRequests (fetch_data_with_retry "e"
      (fun i => HttpOutcome.transportError (i + 1)) 3 0).2 = 3 ∧
    Event.errorLog "e" 3 ∈
      (fetch_data_with_retry "e" (fun i => HttpOutcome.transportError (i + 1)) 3 0).2 ∧
    ∀ k, k + 2 < 3 →
      gap (fetch_data_with_retry "e" (fun i => HttpOutcome.transportError (i + 1)) 3 0).2 k <
        gap (fetch_data_with_retry "e"
          (fun i => HttpOutcome.transportError (i + 1)) 3 0).2 (k + 1) :=
  claim4 "e" _ (fun i => i + 1) 3 0 (fun _ => rfl) (by decide)

/-- C7 counterexample.  With the shutdown flag set and every attempt
failing, `fetch_data_with_retry` still performs all five attempts and ends
by re-raising the exception: it neither stops retrying nor returns any
distinguished cancelled outcome when the flag is set. -/
theorem claim7_cx :
    (fetch_data_with_retry_with_flag true "e"
      (fun _ => HttpOutcome.transportError 7) 5 0).1 = FetchResult.raised 7 ∧
    numRequests (fetch_data_with_retry_with_flag true "e"
      (fun _ => HttpOutcome.transportError 7) 5 0).2 = 5 := by
  decide

/-- C7 amended.  The fetch client never reads the ShutdownFlag: its result
and trace are identical whatever the flag's value, and with the flag set
and persistently failing attempts it keeps retrying and finally raises.
Cancellation is observed only by the collection loops, between calls. -/
theorem claim7_amended (s1 s2 : Bool) (ep : String) (o : Nat → HttpOutcome)
    (c : Nat → Nat) (mr rc : Nat)
    (hall : ∀ i, o i = HttpOutcome.transportError (c i)) (hmr : 0 < mr) :
    fetch_data_with_retry_with_flag s1 ep o mr rc =
      fetch_data_with_retry_with_flag s2 ep o mr rc ∧
    (fetch_data_with_retry_with_flag true ep o mr rc).1 = FetchResult.raised (c (mr - 1)) :=
  ⟨rfl, fetch_err_raised hall mr 0 (by omega) hmr⟩

theorem claim7_amended_witness :
    fetch_data_with_retry_with_flag true "e" (fun _ => HttpOutcome.transportError 7) 5 0 =
      fetch_data_with_retry_with_flag false "e" (fun _ => HttpOutcome.transportError 7) 5 0 ∧
    (fetch_data_with_retry_with_flag true "e"
      (fun _ => HttpOutcome.transportError 7) 5 0).1 = FetchResult.raised 7 :=
  claim7_amended true false "e" _ (fun _ => 7) 5 0 (fun _ => rfl) (by decide)

/-- C8 counterexample.  The pacing wait before the first request of a
successful fetch is one single atomic sleep event of 52 deciseconds
(5.2 s); no flag poll occurs inside the fetch, and 52 ds is not a
sub-second increment. -/
theorem claim8_cx :
    fetch_data_with_retry "e" (fun _ => HttpOutcome.success (PyVal.int 1)) 5 0 =
      (FetchResult.ok (PyVal.int 1), [Event.paceSleep 52, Event.request 0]) ∧
    ¬ (52 : Nat) < 10 := by
  decide

/-- C8 amended.  Every pacing wait of the fetch client is a single atomic
`time.sleep` of the full delay, never sliced into sub-second increments:
each `paceSleep` event in any fetch trace has duration at least
`RATE_LIMIT_DELAY` (5.2 s). -/
theorem claim8_amended (ep : String) (o : Nat → HttpOutcome) (mr rc d : Nat)
    (h : Event.paceSleep d ∈ (fetch_data_with_retry ep o mr rc).2) :
    RATE_LIMIT_DELAY ≤ d :=
  fetch_pace_lower mr 0 d h

theorem claim8_amended_witness : RATE_LIMIT_DELAY ≤ 52 :=
  claim8_amended "e" (fun _ => HttpOutcome.success (PyVal.int 1)) 5 0 52 (by decide)

/-- C9.  The collection-loop helpers call `fetch_data_with_retry` without
forwarding the loop's running request counter, so `request_count` is the
default 0 at every call; with `request_count = 0` the pacing delay is the
plain exponential `RATE_LIMIT_DELAY * 2 ^ attempt` with no burst extra,
and the first sleep of every fetch is exactly `paceDelay 0 request_count`.
The burst branch itself is reachable only for a positive multiple of
`BURST_PROTECTION_INTERVAL` (shown at 50), which no caller ever passes. -/
theorem claim9 :
    (∀ h o, get_block_hash_by_height h o =
      fetch_data_with_retry (BASE_URL ++ "/block-height/" ++ toString h) o 5 0) ∧
    (∀ v o, get_block_data v o =
      fetch_data_with_retry (BASE_URL ++ "/block/" ++ pyToString v) o 5 0) ∧
    (∀ o, get_fee_estimates o =
      fetch_data_with_retry (BASE_URL ++ "/fee-estimates") o 5 0) ∧
    (∀ a, paceDelay a 0 = RATE_LIMIT_DELAY * 2 ^ a) ∧
    paceDelay 0 BURST_PROTECTION_INTERVAL = RATE_LIMIT_DELAY + BURST_PROTECTION_DELAY ∧
    (∀ ep o rcnt, (fetch_data_with_retry ep o 5 rcnt).2.head? =
      some (Event.paceSleep (paceDelay 0 rcnt))) := by
  refine ⟨fun _ _ => rfl, fun _ _ => rfl, fun _ => rfl, ?_, by decide, ?_⟩
  · intro a
    cases a with
    | zero => decide
    | succ n =>
        show paceDelay (n + 1) 0 = RATE_LIMIT_DELAY * 2 ^ (n + 1)
        unfold paceDelay
        rw [if_pos (show 0 < n + 1 by omega)]
        simp
  · intro ep o rcnt
    show ((fetchAttempts ep o 5 rcnt 5 0).2).head? = _
    cases ho : o 0 with
    | throttled ra =>
        rw [show (5 : Nat) = 4 + 1 from rfl, fetchAttempts_throttled ho]
        rfl
    | transportError c =>
        rw [show (5 : Nat) = 4 + 1 from rfl,
          fetchAttempts_error_cont ho (by norm_num)]
        rfl
    | success v =>
        rw [show (5 : Nat) = 4 + 1 from rfl, fetchAttempts_success ho]
        rfl

/-- A block-loop iteration environment where everything succeeds. -/
def okEnv : BlockIterEnv :=
  { sigAtStart := false
    hashOutcomes := fun _ => HttpOutcome.success (PyVal.str "h")
    sigMid := false
    dataOutcomes := fun _ => HttpOutcome.success PyVal.obj
    savePut := Except.ok ()
    sigBatch := false }

/-- A fee-loop iteration environment where everything succeeds. -/
def okFeeEnv : FeeIterEnv :=
  { sigAtStart := false
    feeOutcomes := fun _ => HttpOutcome.success PyVal.obj
    sigMid1 := false
    hashOutcomes := fun _ => HttpOutcome.success (PyVal.str "h")
    sigMid2 := false
    dataOutcomes := fun _ => HttpOutcome.success PyVal.obj
    savePut := Except.ok ()
    sigBatch := false }

/-- C3 counterexample.  One block whose two fetches succeed but whose
store write fails: `save_to_minio` reports `False`, yet the loop counts
the unit as collected (`collected_count = 1`), does not count it as
failed (`failed_count = 0`), and nothing was persisted. -/
theorem claim3_cx :
    save_to_minio (Except.error 3) = false ∧
    (collect_historical_block_data
      (fun _ => { okEnv with savePut := Except.error 3 }) false [10]).collected = 1 ∧
    (collect_historical_block_data
      (fun _ => { okEnv with savePut := Except.error 3 }) false [10]).failed = 0 ∧
    (collect_historical_block_data
      (fun _ => { okEnv with savePut := Except.error 3 }) false [10]).persisted = [] := by
  decide

/-- C3 amended.  The loop discards `save_to_minio`'s return value: when
both fetches of a unit succeed but the store write fails, the unit is
still counted as collected, `failed_count` is not incremented, and no
object is persisted at the unit's key (so a later scan still sees the unit
as not completed). -/
theorem claim3_amended (total i h : Nat) (env : BlockIterEnv) (st : CollState)
    (vh vd : PyVal) (ec : Nat)
    (hbroke : st.broke = false) (hflag : st.flag = false)
    (hs1 : env.sigAtStart = false) (hs2 : env.sigMid = false)
    (hhash : (get_block_hash_by_height h env.hashOutcomes).1.toCaller = Except.ok vh)
    (hdata : (get_block_data vh env.dataOutcomes).1.toCaller = Except.ok vd)
    (hsave : env.savePut = Except.error ec) :
    save_to_minio env.savePut = false ∧
    (blockStep total env i h st).collected = st.collected + 1 ∧
    (blockStep total env i h st).failed = st.failed ∧
    (blockStep total env i h st).persisted = st.persisted := by
  have hsm : save_to_minio env.savePut = false := by rw [hsave]; rfl
  refine ⟨hsm, ?_⟩
  unfold blockStep
  rw [hbroke, hflag, hs1, hs2]
  simp only [Bool.or_self, Bool.false_or, if_neg (by simp : ¬ (false = true))]
  rw [hhash]
  simp only []
  rw [hdata]
  simp only [hsm]
  split
  · exact ⟨rfl, rfl, rfl⟩
  · exact ⟨rfl, rfl, rfl⟩

theorem claim3_amended_witness :
    save_to_minio (({ okEnv with savePut := Except.error 3 } : BlockIterEnv).savePut) = false ∧
    (blockStep 1 { okEnv with savePut := Except.error 3 } 0 10
      (initState false)).collected = (initState false).collected + 1 ∧
    (blockStep 1 { okEnv with savePut := Except.error 3 } 0 10
      (initState false)).failed = (initState false).failed ∧
    (blockStep 1 { okEnv with savePut := Except.error 3 } 0 10
      (initState false)).persisted = (initState false).persisted :=
  claim3_amended 1 0 10 _ (initState false) (PyVal.str "h") PyVal.obj 3
    rfl rfl rfl rfl rfl rfl rfl

/-- C10.  When every attempt of `get_block_hash_by_height` is throttled,
the retry loop exhausts its attempts and implicitly returns `None`; the
block loop receives that `None` as an ordinary value, passes it on as the
block hash of the next request (whose URL interpolates to ".../block/None"),
and counts the unit as collected rather than failed. -/
theorem claim10 (o : Nat → HttpOutcome) (r : Nat → Option Nat)
    (total i h : Nat) (env : BlockIterEnv) (st : CollState) (vd : PyVal)
    (hall : ∀ a, o a = HttpOutcome.throttled (r a))
    (hbroke : st.broke = false) (hflag : st.flag = false)
    (hs1 : env.sigAtStart = false) (hs2 : env.sigMid = false)
    (henv : env.hashOutcomes = o)
    (hdata : (get_block_data PyVal.none env.dataOutcomes).1.toCaller = Except.ok vd) :
    (get_block_hash_by_height h o).1 = FetchResult.exhausted ∧
    FetchResult.exhausted.toCaller = Except.ok PyVal.none ∧
    ApiCall.blockData PyVal.none ∈ (blockStep total env i h st).calls ∧
    apiCallEndpoint (ApiCall.blockData PyVal.none) =
      "https://blockstream.info/api/block/None" ∧
    (blockStep total env i h st).collected = st.collected + 1 ∧
    (blockStep total env i h st).failed = st.failed := by
  have hex : (get_block_hash_by_height h o).1 = FetchResult.exhausted :=
    fetch_thr_exhausted hall 5 0
  have hexc : (get_block_hash_by_height h env.hashOutcomes).1.toCaller =
      Except.ok PyVal.none := by
    rw [henv, hex]
    rfl
  refine ⟨hex, rfl, ?_⟩
  unfold blockStep
  rw [hbroke, hflag, hs1, hs2]
  simp only [Bool.or_self, Bool.false_or, if_neg (by simp : ¬ (false = true))]
  rw [hexc]
  simp only []
  rw [hdata]
  simp only []
  refine ⟨?_, rfl, ?_⟩
  · split
    · simp
    · simp
  · split
    · exact ⟨rfl, rfl⟩
    · exact ⟨rfl, rfl⟩

theorem claim10_witness :
    (get_block_hash_by_height 10 (fun _ => HttpOutcome.throttled none)).1 =
      FetchResult.exhausted ∧
    FetchResult.exhausted.toCaller = Except.ok PyVal.none ∧
    ApiCall.blockData PyVal.none ∈
      (blockStep 1 { okEnv with hashOutcomes := fun _ => HttpOutcome.throttled none }
        0 10 (initState false)).calls ∧
    apiCallEndpoint (ApiCall.blockData PyVal.none) =
      "https://blockstream.info/api/block/None" ∧
    (blockStep 1 { okEnv with hashOutcomes := fun _ => HttpOutcome.throttled none }
      0 10 (initState false)).collected = (initState false).collected + 1 ∧
    (blockStep 1 { okEnv with hashOutcomes := fun _ => HttpOutcome.throttled none }
      0 10 (initState false)).failed = (initState false).failed :=
  claim10 (fun _ => HttpOutcome.throttled none) (fun _ => none) 1 0 10 _
    (initState false) PyVal.obj (fun _ => rfl) rfl rfl rfl rfl rfl rfl

/-- With no shutdown signal, a block-loop step keeps the flag false and
maintains the invariant that exceeding the failure ceiling forces the
broken (exited) state. -/
lemma blockStep_noSignal_inv (total i h : Nat) (env : BlockIterEnv) (st : CollState)
    (h1 : env.sigAtStart = false) (h2 : env.sigMid = false) (h3 : env.sigBatch = false)
    (hflag : st.flag = false) (hinv : 20 < st.failed → st.broke = true) :
    (blockStep total env i h st).flag = false ∧
    (20 < (blockStep total env i h st).failed →
      (blockStep total env i h st).broke = true) := by
  cases hb : st.broke with
  | true =>
      have hid : blockStep total env i h st = st := by
        unfold blockStep
        rw [hb]
        simp
      rw [hid]
      exact ⟨hflag, hinv⟩
  | false =>
      unfold blockStep
      rw [hb, hflag, h1, h2, h3]
      simp only [Bool.or_self, Bool.false_or, Bool.or_false,
        if_neg (show ¬ (false = true) by simp)]
      cases hm : (get_block_hash_by_height h env.hashOutcomes).1.toCaller with
      | error c =>
          exact ⟨rfl, fun hh => decide_eq_true hh⟩
      | ok v =>
          simp only []
          cases hm2 : (get_block_data v env.dataOutcomes).1.toCaller with
          | error c =>
              exact ⟨rfl, fun hh => decide_eq_true hh⟩
          | ok w =>
              simp only []
              have hcontra : ¬ 20 < st.failed := by
                intro hh
                have hx := hinv hh
                rw [hb] at hx
                exact absurd hx (by simp)
              by_cases hbp : (st.collected + 1) % BATCH_SIZE = 0
              · rw [if_pos hbp]
                exact ⟨rfl, fun hh => absurd hh hcontra⟩
              · rw [if_neg hbp]
                exact ⟨rfl, fun hh => absurd hh hcontra⟩

/-- Fee-loop analog of `blockStep_noSignal_inv`, with ceiling 10. -/
lemma feeStep_noSignal_inv (total i h : Nat) (env : FeeIterEnv) (st : CollState)
    (h1 : env.sigAtStart = false) (h2 : env.sigMid1 = false) (h3 : env.sigMid2 = false)
    (h4 : env.sigBatch = false)
    (hflag : st.flag = false) (hinv : 10 < st.failed → st.broke = true) :
    (feeStep total env i h st).flag = false ∧
    (10 < (feeStep total env i h st).failed →
      (feeStep total env i h st).broke = true) := by
  cases hb : st.broke with
  | true =>
      have hid : feeStep total env i h st = st := by
        unfold feeStep
        rw [hb]
        simp
      rw [hid]
      exact ⟨hflag, hinv⟩
  | false =>
      unfold feeStep
      rw [hb, hflag, h1, h2, h3, h4]
      simp only [Bool.or_self, Bool.false_or, Bool.or_false,
        if_neg (show ¬ (false = true) by simp)]
      cases hm : (get_fee_estimates env.feeOutcomes).1.toCaller with
      | error c =>
          exact ⟨rfl, fun hh => decide_eq_true hh⟩
      | ok v0 =>
          simp only []
          cases hm2 : (get_block_hash_by_height h env.hashOutcomes).1.toCaller with
          | error c =>
              exact ⟨rfl, fun hh => decide_eq_true hh⟩
          | ok v =>
              simp only []
              cases hm3 : (get_block_data v env.dataOutcomes).1.toCaller with
              | error c =>
                  exact ⟨rfl, fun hh => decide_eq_true hh⟩
              | ok w =>
                  simp only []
                  cases w with
                  | obj =>
                      have hcontra : ¬ 10 < st.failed := by
                        intro hh
                        have hx := hinv hh
                        rw [hb] at hx
                        exact absurd hx (by simp)
                      by_cases hbp : (st.collected + 1) % 30 = 0
                      · rw [if_pos hbp]
                        exact ⟨rfl, fun hh => absurd hh hcontra⟩
                      · rw [if_neg hbp]
                        exact ⟨rfl, fun hh => absurd hh hcontra⟩
                  | none => exact ⟨rfl, fun hh => decide_eq_true hh⟩
                  | str s => exact ⟨rfl, fun hh => decide_eq_true hh⟩
                  | int n => exact ⟨rfl, fun hh => decide_eq_true hh⟩

lemma blockLoopGo_noSignal (envs : Nat → BlockIterEnv) (total : Nat)
    (hsig : ∀ j, (envs j).sigAtStart = false ∧ (envs j).sigMid = false ∧
      (envs j).sigBatch = false) :
    ∀ (l : List Nat) (i : Nat) (st : CollState), st.flag = false →
      (20 < st.failed → st.broke = true) →
      (blockLoopGo envs total i l st).flag = false ∧
      (20 < (blockLoopGo envs total i l st).failed →
        (blockLoopGo envs total i l st).broke = true) := by
  intro l
  induction l with
  | nil => intro i st hf hv; exact ⟨hf, hv⟩
  | cons hd tl ih =>
      intro i st hf hv
      have step := blockStep_noSignal_inv total i hd (envs i) st
        (hsig i).1 (hsig i).2.1 (hsig i).2.2 hf hv
      exact ih (i + 1) _ step.1 step.2

lemma feeLoopGo_noSignal (envs : Nat → FeeIterEnv) (total : Nat)
    (hsig : ∀ j, (envs j).sigAtStart = false ∧ (envs j).sigMid1 = false ∧
      (envs j).sigMid2 = false ∧ (envs j).sigBatch = false) :
    ∀ (l : List Nat) (i : Nat) (st : CollState), st.flag = false →
      (10 < st.failed → st.broke = true) →
      (feeLoopGo envs total i l st).flag = false ∧
      (10 < (feeLoopGo envs total i l st).failed →
        (feeLoopGo envs total i l st).broke = true) := by
  intro l
  induction l with
  | nil => intro i st hf hv; exact ⟨hf, hv⟩
  | cons hd tl ih =>
      intro i st hf hv
      have step := feeStep_noSignal_inv total i hd (envs i) st
        (hsig i).1 (hsig i).2.1 (hsig i).2.2.1 (hsig i).2.2.2 hf hv
      exact ih (i + 1) _ step.1 step.2

/-- A block-loop environment whose hash fetch always raises. -/
def errEnv : BlockIterEnv :=
  { okEnv with hashOutcomes := fun _ => HttpOutcome.transportError 1 }

/-- A fee-loop environment whose fee-estimates fetch always raises. -/
def errFeeEnv : FeeIterEnv :=
  { okFeeEnv with feeOutcomes := fun _ => HttpOutcome.transportError 1 }

/-- C6 counterexample.  A run of 22 block units that all fail: the loop
stops early after the 21st failure (21 calls for 22 units, `broke`), yet
the final checkpoint it writes has `completed_gracefully = true`, because
the field records only `not shutdown_requested`, not the abort. -/
theorem claim6_cx :
    (collect_historical_block_data (fun _ => errEnv) false
      ((List.range 22).map (fun k => k + 100))).checkpoints =
      [CkptData.finalCkpt 0 21 42 true] ∧
    (collect_historical_block_data (fun _ => errEnv) false
      ((List.range 22).map (fun k => k + 100))).broke = true ∧
    (collect_historical_block_data (fun _ => errEnv) false
      ((List.range 22).map (fun k => k + 100))).calls.length = 21 ∧
    ((List.range 22).map (fun k => k + 100)).length = 22 := by
  decide

/-- C6 amended.  When the failure ceiling is exceeded without a shutdown
request the loop does stop early (`broke = true`), but the final
checkpoint marks `completed_gracefully = true`, not `false`: the field is
computed as `not shutdown_requested` and ignores the abort, for both the
block loop (ceiling 20) and the fee loop (ceiling 10). -/
theorem claim6_amended (envsB : Nat → BlockIterEnv) (envsF : Nat → FeeIterEnv)
    (blocks fees : List Nat)
    (hb : ∀ j, (envsB j).sigAtStart = false ∧ (envsB j).sigMid = false ∧
      (envsB j).sigBatch = false)
    (hf : ∀ j, (envsF j).sigAtStart = false ∧ (envsF j).sigMid1 = false ∧
      (envsF j).sigMid2 = false ∧ (envsF j).sigBatch = false) :
    (collect_historical_block_data envsB false blocks).checkpoints.getLast? =
      some (CkptData.finalCkpt
        (collect_historical_block_data envsB false blocks).collected
        (collect_historical_block_data envsB false blocks).failed
        (collect_historical_block_data envsB false blocks).requests true) ∧
    (20 < (collect_historical_block_data envsB false blocks).failed →
      (collect_historical_block_data envsB false blocks).broke = true) ∧
    (collect_historical_fee_data envsF false fees).checkpoints.getLast? =
      some (CkptData.finalCkpt
        (collect_historical_fee_data envsF false fees).collected
        (collect_historical_fee_data envsF false fees).failed
        (collect_historical_fee_data envsF false fees).requests true) ∧
    (10 < (collect_historical_fee_data envsF false fees).failed →
      (collect_historical_fee_data envsF false fees).broke = true) := by
  have hB := blockLoopGo_noSignal envsB blocks.length hb blocks 0 (initState false)
    rfl (by intro hh; simp [initState] at hh)
  have hF := feeLoopGo_noSignal envsF fees.length hf fees 0 (initState false)
    rfl (by intro hh; simp [initState] at hh)
  refine ⟨?_, hB.2, ?_, hF.2⟩
  · show ((blockLoopGo envsB blocks.length 0 blocks (initState false)).checkpoints ++
      [CkptData.finalCkpt (blockLoopGo envsB blocks.length 0 blocks (initState false)).collected
        (blockLoopGo envsB blocks.length 0 blocks (initState false)).failed
        (blockLoopGo envsB blocks.length 0 blocks (initState false)).requests
        (!(blockLoopGo envsB blocks.length 0 blocks (initState false)).flag)]).getLast? =
      some (CkptData.finalCkpt
        (collect_historical_block_data envsB false blocks).collected
        (collect_historical_block_data envsB false blocks).failed
        (collect_historical_block_data envsB false blocks).requests true)
    rw [hB.1, List.getLast?_concat]; rfl
  · show ((feeLoopGo envsF fees.length 0 fees (initState false)).checkpoints ++
      [CkptData.finalCkpt (feeLoopGo envsF fees.length 0 fees (initState false)).collected
        (feeLoopGo envsF fees.length 0 fees (initState false)).failed
        (feeLoopGo envsF fees.length 0 fees (initState false)).requests
        (!(feeLoopGo envsF fees.length 0 fees (initState false)).flag)]).getLast? =
      some (CkptData.finalCkpt
        (collect_historical_fee_data envsF false fees).collected
        (collect_historical_fee_data envsF false fees).failed
        (collect_historical_fee_data envsF false fees).requests true)
    rw [hF.1, List.getLast?_concat]; rfl

theorem claim6_amended_witness :
    (collect_historical_block_data (fun _ => errEnv) false [1]).checkpoints.getLast? =
      some (CkptData.finalCkpt
        (collect_historical_block_data (fun _ => errEnv) false [1]).collected
        (collect_historical_block_data (fun _ => errEnv) false [1]).failed
        (collect_historical_block_data (fun _ => errEnv) false [1]).requests true) ∧
    (20 < (collect_historical_block_data (fun _ => errEnv) false [1]).failed →
      (collect_historical_block_data (fun _ => errEnv) false [1]).broke = true) ∧
    (collect_historical_fee_data (fun _ => errFeeEnv) false [1]).checkpoints.getLast? =
      some (CkptData.finalCkpt
        (collect_historical_fee_data (fun _ => errFeeEnv) false [1]).collected
        (collect_historical_fee_data (fun _ => errFeeEnv) false [1]).failed
        (collect_historical_fee_data (fun _ => errFeeEnv) false [1]).requests true) ∧
    (10 < (collect_historical_fee_data (fun _ => errFeeEnv) false [1]).failed →
      (collect_historical_fee_data (fun _ => errFeeEnv) false [1]).broke = true) :=
  claim6_amended (fun _ => errEnv) (fun _ => errFeeEnv) [1] [1]
    (fun _ => ⟨rfl, rfl, rfl⟩) (fun _ => ⟨rfl, rfl, rfl, rfl⟩)

/-- A block-loop step never removes a height from the persisted set. -/
lemma blockStep_persisted_mono (total i h : Nat) (env : BlockIterEnv) (st : CollState) :
    ∀ u, u ∈ st.persisted → u ∈ (blockStep total env i h st).persisted := by
  intro u hu
  unfold blockStep
  dsimp only
  split
  · exact hu
  · split
    · exact hu
    · split
      · exact hu
      · split
        · exact hu
        · split
          · exact hu
          · split
            · dsimp only
              split
              · exact List.mem_append_left _ hu
              · exact hu
            · dsimp only
              split
              · exact List.mem_append_left _ hu
              · exact hu

/-- Any shutdown checkpoint with a recorded height found after a block
step was either already present, or was written by this step: then the
step saw a clean state (`broke = false`), the recorded failure count is
the live one (here 0), `i` is positive, the recorded height is `h - 1`,
and the step left the persisted set unchanged. -/
lemma blockStep_shutdownCkpt (total i h : Nat) (env : BlockIterEnv) (st : CollState)
    (L : Int) (cc rr : Nat)
    (hmem : CkptData.shutdownCkpt (some L) cc 0 rr ∈
      (blockStep total env i h st).checkpoints) :
    CkptData.shutdownCkpt (some L) cc 0 rr ∈ st.checkpoints ∨
      (st.broke = false ∧ st.failed = 0 ∧ 0 < i ∧ L = (h : Int) - 1 ∧
        (blockStep total env i h st).persisted = st.persisted) := by
  revert hmem
  unfold blockStep
  dsimp only
  split
  · exact fun hm => Or.inl hm
  · rename_i hbr
    split
    · intro hm
      rcases List.mem_append.mp hm with hold | hnew
      · exact Or.inl hold
      · right
        simp only [List.mem_singleton, CkptData.shutdownCkpt.injEq] at hnew
        obtain ⟨hL, hcc, hfail, hrr⟩ := hnew
        have hbr2 : st.broke = false := by
          revert hbr
          cases st.broke <;> simp
        by_cases hi : 0 < i
        · rw [if_pos hi] at hL
          simp only [Option.some.injEq] at hL
          exact ⟨hbr2, hfail.symm, hi, hL, rfl⟩
        · rw [if_neg hi] at hL
          simp at hL
    · split
      · exact fun hm => Or.inl hm
      · split
        · exact fun hm => Or.inl hm
        · split
          · exact fun hm => Or.inl hm
          · split
            · intro hm
              dsimp only at hm
              left
              revert hm
              split
              · intro hm
                rcases List.mem_append.mp hm with hold | hnew
                · exact hold
                · simp at hnew
              · exact fun hm => hm
            · intro hm
              dsimp only at hm
              left
              revert hm
              split
              · intro hm
                rcases List.mem_append.mp hm with hold | hnew
                · exact hold
                · simp at hnew
              · exact fun hm => hm

/-- If every processed prefix unit is persisted whenever the loop is clean
and failure-free, that stays true after one more step, now including the
step's own unit, provided the store write cannot fail. -/
lemma blockStep_prefix_inv (total i h : Nat) (env : BlockIterEnv) (st : CollState)
    (pre : List Nat) (hsave : env.savePut = Except.ok ())
    (hpre : st.broke = false → st.failed = 0 → ∀ u ∈ pre, u ∈ st.persisted) :
    (blockStep total env i h st).broke = false →
    (blockStep total env i h st).failed = 0 →
    ∀ u, u ∈ pre ++ [h] → u ∈ (blockStep total env i h st).persisted := by
  have hsm : save_to_minio env.savePut = true := by rw [hsave]; rfl
  unfold blockStep
  dsimp only
  split
  · rename_i hbr
    intro hb2 _ u _
    rw [hb2] at hbr
    exact absurd hbr (by simp)
  · rename_i hbrneg
    have hbr2 : st.broke = false := by
      revert hbrneg
      cases st.broke <;> simp
    split
    · intro hb2
      simp at hb2
    · split
      · intro _ hf0
        simp at hf0
      · split
        · intro hb2
          simp at hb2
        · split
          · intro _ hf0
            simp at hf0
          · split
            · intro _ hf0 u hu
              dsimp only at hf0 ⊢
              rcases List.mem_append.mp hu with h1 | h2
              · exact List.mem_append_left _ (hpre hbr2 hf0 u h1)
              · exact List.mem_append_right _ h2
            · intro _ hf0 u hu
              dsimp only at hf0 ⊢
              rcases List.mem_append.mp hu with h1 | h2
              · exact List.mem_append_left _ (hpre hbr2 hf0 u h1)
              · exact List.mem_append_right _ h2

/-- A fee-loop step never removes a height from the persisted set. -/
lemma feeStep_persisted_mono (total i h : Nat) (env : FeeIterEnv) (st : CollState) :
    ∀ u, u ∈ st.persisted → u ∈ (feeStep total env i h st).persisted := by
  intro u hu
  unfold feeStep
  dsimp only
  repeat' split
  all_goals first
    | exact hu
    | exact List.mem_append_left _ hu

/-- Fee-loop analog of `blockStep_shutdownCkpt`: a freshly written
shutdown checkpoint records `h - FEE_SAMPLE_INTERVAL` and was written from
a clean state. -/
lemma feeStep_shutdownCkpt (total i h : Nat) (env : FeeIterEnv) (st : CollState)
    (L : Int) (cc rr : Nat)
    (hmem : CkptData.shutdownCkpt (some L) cc 0 rr ∈
      (feeStep total env i h st).checkpoints) :
    CkptData.shutdownCkpt (some L) cc 0 rr ∈ st.checkpoints ∨
      (st.broke = false ∧ st.failed = 0 ∧ 0 < i ∧
        L = (h : Int) - FEE_SAMPLE_INTERVAL ∧
        (feeStep total env i h st).persisted = st.persisted) := by
  revert hmem
  unfold feeStep
  dsimp only
  split
  · exact fun hm => Or.inl hm
  · rename_i hbr
    split
    · intro hm
      rcases List.mem_append.mp hm with hold | hnew
      · exact Or.inl hold
      · right
        simp only [List.mem_singleton, CkptData.shutdownCkpt.injEq] at hnew
        obtain ⟨hL, hcc, hfail, hrr⟩ := hnew
        have hbr2 : st.broke = false := by
          revert hbr
          cases st.broke <;> simp
        by_cases hi : 0 < i
        · rw [if_pos hi] at hL
          simp only [Option.some.injEq] at hL
          exact ⟨hbr2, hfail.symm, hi, hL, rfl⟩
        · rw [if_neg hi] at hL
          simp at hL
    · repeat' split
      all_goals
        intro hm
        left
      all_goals
        first
          | exact hm
          | (rcases List.mem_append.mp hm with hold | hnew
             · exact hold
             · simp at hnew)

/-- Fee-loop analog of `blockStep_prefix_inv`. -/
lemma feeStep_prefix_inv (total i h : Nat) (env : FeeIterEnv) (st : CollState)
    (pre : List Nat) (hsave : env.savePut = Except.ok ())
    (hpre : st.broke = false → st.failed = 0 → ∀ u ∈ pre, u ∈ st.persisted) :
    (feeStep total env i h st).broke = false →
    (feeStep total env i h st).failed = 0 →
    ∀ u, u ∈ pre ++ [h] → u ∈ (feeStep total env i h st).persisted := by
  have hsm : save_to_minio env.savePut = true := by rw [hsave]; rfl
  unfold feeStep
  dsimp only
  split
  · rename_i hbr
    intro hb2 _ u _
    rw [hb2] at hbr
    exact absurd hbr (by simp)
  · rename_i hbrneg
    have hbr2 : st.broke = false := by
      revert hbrneg
      cases st.broke <;> simp
    split
    · intro hb2
      simp at hb2
    · split
      · intro _ hf0
        simp at hf0
      · split
        · intro hb2
          simp at hb2
        · split
          · intro _ hf0
            simp at hf0
          · split
            · intro hb2
              simp at hb2
            · split
              · intro _ hf0
                simp at hf0
              · split
                · split
                  · intro _ hf0 u hu
                    dsimp only at hf0 ⊢
                    rcases List.mem_append.mp hu with h1 | h2
                    · exact List.mem_append_left _ (hpre hbr2 hf0 u h1)
                    · exact List.mem_append_right _ h2
                  · intro _ hf0 u hu
                    dsimp only at hf0 ⊢
                    rcases List.mem_append.mp hu with h1 | h2
                    · exact List.mem_append_left _ (hpre hbr2 hf0 u h1)
                    · exact List.mem_append_right _ h2
                · intro _ hf0
                  simp at hf0

/-- Low-water-mark induction for the block loop: with all store writes
succeeding and a strictly ascending WorkSet, any shutdown checkpoint that
records a height and a zero failure count bounds (strictly) only units
already persisted in this run. -/
lemma blockLoopGo_lowWater (envs : Nat → BlockIterEnv) (total : Nat)
    (hsave : ∀ j, (envs j).savePut = Except.ok ()) :
    ∀ (rest pre : List Nat) (st : CollState),
      List.Sorted (fun a b => a < b) (pre ++ rest) →
      (st.broke = false → st.failed = 0 → ∀ u ∈ pre, u ∈ st.persisted) →
      (∀ L cc rr, CkptData.shutdownCkpt (some L) cc 0 rr ∈ st.checkpoints →
        ∀ u ∈ pre ++ rest, (u : Int) < L → u ∈ st.persisted) →
      ∀ L cc rr, CkptData.shutdownCkpt (some L) cc 0 rr ∈
          (blockLoopGo envs total pre.length rest st).checkpoints →
        ∀ u ∈ pre ++ rest, (u : Int) < L →
          u ∈ (blockLoopGo envs total pre.length rest st).persisted := by
  intro rest
  induction rest with
  | nil =>
      intro pre st _ _ hck L cc rr hm u hu hult
      exact hck L cc rr hm u hu hult
  | cons hd tl ih =>
      intro pre st hsort hpre hck L cc rr hm u hu hult
      set st' := blockStep total (envs pre.length) pre.length hd st with hst'
      have hlen : (pre ++ [hd]).length = pre.length + 1 := by simp
      have hsort' : List.Sorted (fun a b => a < b) ((pre ++ [hd]) ++ tl) := by
        simpa [List.append_assoc] using hsort
      have hpre' : st'.broke = false → st'.failed = 0 →
          ∀ v ∈ pre ++ [hd], v ∈ st'.persisted :=
        blockStep_prefix_inv total pre.length hd (envs pre.length) st pre
          (hsave pre.length) hpre
      have hck' : ∀ L2 cc2 rr2, CkptData.shutdownCkpt (some L2) cc2 0 rr2 ∈
          st'.checkpoints →
          ∀ v ∈ (pre ++ [hd]) ++ tl, (v : Int) < L2 → v ∈ st'.persisted := by
        intro L2 cc2 rr2 hm2 v hv hvlt
        rcases blockStep_shutdownCkpt total pre.length hd (envs pre.length) st L2 cc2 rr2
            hm2 with hold | ⟨hbr, hf0, _hipos, hL2, hpers⟩
        · exact blockStep_persisted_mono total pre.length hd (envs pre.length) st v
            (hck L2 cc2 rr2 hold v (by simpa [List.append_assoc] using hv) hvlt)
        · rw [hpers]
          have hv2 : v ∈ pre ++ hd :: tl := by simpa [List.append_assoc] using hv
          rcases List.mem_append.mp hv2 with h1 | h2
          · exact hpre hbr hf0 v h1
          · exfalso
            have hs2 : List.Sorted (fun a b => a < b) (hd :: tl) :=
              (List.pairwise_append.mp hsort).2.1
            have hbd : hd ≤ v := by
              rcases List.mem_cons.mp h2 with rfl | h3
              · exact le_refl _
              · exact le_of_lt ((List.sorted_cons.mp hs2).1 v h3)
            have hbd2 : (hd : Int) ≤ (v : Int) := by exact_mod_cast hbd
            omega
      have hgo : blockLoopGo envs total ((pre ++ [hd]).length) tl st' =
          blockLoopGo envs total (pre.length + 1) tl st' := by rw [hlen]
      have hmem2 : CkptData.shutdownCkpt (some L) cc 0 rr ∈
          (blockLoopGo envs total ((pre ++ [hd]).length) tl st').checkpoints := by
        rw [hgo]
        exact hm
      have hu2 : u ∈ (pre ++ [hd]) ++ tl := by simpa [List.append_assoc] using hu
      have hres := ih (pre ++ [hd]) st' hsort' hpre' hck' L cc rr hmem2 u hu2 hult
      rw [hgo] at hres
      exact hres

/-- Low-water-mark induction for the fee loop. -/
lemma feeLoopGo_lowWater (envs : Nat → FeeIterEnv) (total : Nat)
    (hsave : ∀ j, (envs j).savePut = Except.ok ()) :
    ∀ (rest pre : List Nat) (st : CollState),
      List.Sorted (fun a b => a < b) (pre ++ rest) →
      (st.broke = false → st.failed = 0 → ∀ u ∈ pre, u ∈ st.persisted) →
      (∀ L cc rr, CkptData.shutdownCkpt (some L) cc 0 rr ∈ st.checkpoints →
        ∀ u ∈ pre ++ rest, (u : Int) < L → u ∈ st.persisted) →
      ∀ L cc rr, CkptData.shutdownCkpt (some L) cc 0 rr ∈
          (feeLoopGo envs total pre.length rest st).checkpoints →
        ∀ u ∈ pre ++ rest, (u : Int) < L →
          u ∈ (feeLoopGo envs total pre.length rest st).persisted := by
  intro rest
  induction rest with
  | nil =>
      intro pre st _ _ hck L cc rr hm u hu hult
      exact hck L cc rr hm u hu hult
  | cons hd tl ih =>
      intro pre st hsort hpre hck L cc rr hm u hu hult
      set st' := feeStep total (envs pre.length) pre.length hd st with hst'
      have hlen : (pre ++ [hd]).length = pre.length + 1 := by simp
      have hsort' : List.Sorted (fun a b => a < b) ((pre ++ [hd]) ++ tl) := by
        simpa [List.append_assoc] using hsort
      have hpre' : st'.broke = false → st'.failed = 0 →
          ∀ v ∈ pre ++ [hd], v ∈ st'.persisted :=
        feeStep_prefix_inv total pre.length hd (envs pre.length) st pre
          (hsave pre.length) hpre
      have hck' : ∀ L2 cc2 rr2, CkptData.shutdownCkpt (some L2) cc2 0 rr2 ∈
          st'.checkpoints →
          ∀ v ∈ (pre ++ [hd]) ++ tl, (v : Int) < L2 → v ∈ st'.persisted := by
        intro L2 cc2 rr2 hm2 v hv hvlt
        rcases feeStep_shutdownCkpt total pre.length hd (envs pre.length) st L2 cc2 rr2
            hm2 with hold | ⟨hbr, hf0, _hipos, hL2, hpers⟩
        · exact feeStep_persisted_mono total pre.length hd (envs pre.length) st v
            (hck L2 cc2 rr2 hold v (by simpa [List.append_assoc] using hv) hvlt)
        · rw [hpers]
          have hv2 : v ∈ pre ++ hd :: tl := by simpa [List.append_assoc] using hv
          rcases List.mem_append.mp hv2 with h1 | h2
          · exact hpre hbr hf0 v h1
          · exfalso
            have hs2 : List.Sorted (fun a b => a < b) (hd :: tl) :=
              (List.pairwise_append.mp hsort).2.1
            have hbd : hd ≤ v := by
              rcases List.mem_cons.mp h2 with rfl | h3
              · exact le_refl _
              · exact le_of_lt ((List.sorted_cons.mp hs2).1 v h3)
            have hbd2 : (hd : Int) ≤ (v : Int) := by exact_mod_cast hbd
            have hFI : (FEE_SAMPLE_INTERVAL : Int) = 144 := rfl
            rw [hFI] at hL2
            omega
      have hgo : feeLoopGo envs total ((pre ++ [hd]).length) tl st' =
          feeLoopGo envs total (pre.length + 1) tl st' := by rw [hlen]
      have hmem2 : CkptData.shutdownCkpt (some L) cc 0 rr ∈
          (feeLoopGo envs total ((pre ++ [hd]).length) tl st').checkpoints := by
        rw [hgo]
        exact hm
      have hu2 : u ∈ (pre ++ [hd]) ++ tl := by simpa [List.append_assoc] using hu
      have hres := ih (pre ++ [hd]) st' hsort' hpre' hck' L cc rr hmem2 u hu2 hult
      rw [hgo] at hres
      exact hres

/-- C5 counterexample.  WorkSet [10, 11, 12]: unit 10 fails, unit 11
succeeds, the shutdown arrives before unit 12.  The shutdown checkpoint
records `last_collected_height = 11`, but unit 10 of the WorkSet, strictly
below 11, was never completed or persisted in the run: the recorded
height is not a valid low-water mark in the presence of a failed unit. -/
theorem claim5_cx :
    CkptData.shutdownCkpt (some 11) 1 1 1 ∈
      (collect_historical_block_data
        (fun i => if i = 0 then errEnv
          else if i = 1 then okEnv
          else { okEnv with sigAtStart := true }) false [10, 11, 12]).checkpoints ∧
    (10 : Nat) ∈ ([10, 11, 12] : List Nat) ∧
    ((10 : Nat) : Int) < 11 ∧
    (10 : Nat) ∉
      (collect_historical_block_data
        (fun i => if i = 0 then errEnv
          else if i = 1 then okEnv
          else { okEnv with sigAtStart := true }) false [10, 11, 12]).persisted := by
  decide

/-- C5 amended.  The recorded `last_collected_height` of a mid-WorkSet
shutdown checkpoint is a valid low-water mark only for a clean run: if the
WorkSet is strictly ascending, every store write succeeds, and the
checkpoint records `failed_count = 0`, then every unit of the WorkSet
strictly below the recorded height was completed and persisted in that
run — for both the block loop and the fee loop.  (A failed unit below the
mark, as in the counterexample, remains outstanding.) -/
theorem claim5_amended (envsB : Nat → BlockIterEnv) (envsF : Nat → FeeIterEnv)
    (blocks fees : List Nat) (flagB flagF : Bool)
    (hsortB : List.Sorted (fun a b => a < b) blocks)
    (hsaveB : ∀ j, (envsB j).savePut = Except.ok ())
    (hsortF : List.Sorted (fun a b => a < b) fees)
    (hsaveF : ∀ j, (envsF j).savePut = Except.ok ()) :
    (∀ L cc rr, CkptData.shutdownCkpt (some L) cc 0 rr ∈
        (collect_historical_block_data envsB flagB blocks).checkpoints →
      ∀ u ∈ blocks, (u : Int) < L →
        u ∈ (collect_historical_block_data envsB flagB blocks).persisted) ∧
    (∀ L cc rr, CkptData.shutdownCkpt (some L) cc 0 rr ∈
        (collect_historical_fee_data envsF flagF fees).checkpoints →
      ∀ u ∈ fees, (u : Int) < L →
        u ∈ (collect_historical_fee_data envsF flagF fees).persisted) := by
  constructor
  · intro L cc rr hm u hu hult
    have hm2 : CkptData.shutdownCkpt (some L) cc 0 rr ∈
        (blockLoopGo envsB blocks.length 0 blocks (initState flagB)).checkpoints := by
      rcases List.mem_append.mp hm with h1 | h2
      · exact h1
      · simp at h2
    exact blockLoopGo_lowWater envsB blocks.length hsaveB blocks [] (initState flagB)
      (by simpa using hsortB)
      (by intro _ _ v hv; exact absurd hv (List.not_mem_nil v))
      (by intro L2 cc2 rr2 hmm; exact absurd hmm (List.not_mem_nil _))
      L cc rr hm2 u (by simpa using hu) hult
  · intro L cc rr hm u hu hult
    have hm2 : CkptData.shutdownCkpt (some L) cc 0 rr ∈
        (feeLoopGo envsF fees.length 0 fees (initState flagF)).checkpoints := by
      rcases List.mem_append.mp hm with h1 | h2
      · exact h1
      · simp at h2
    exact feeLoopGo_lowWater envsF fees.length hsaveF fees [] (initState flagF)
      (by simpa using hsortF)
      (by intro _ _ v hv; exact absurd hv (List.not_mem_nil v))
      (by intro L2 cc2 rr2 hmm; exact absurd hmm (List.not_mem_nil _))
      L cc rr hm2 u (by simpa using hu) hult

theorem claim5_amended_witness :
    (5 : Nat) ∈
      (collect_historical_block_data
        (fun i => { okEnv with sigAtStart := decide (2 ≤ i) }) false [5, 6, 7]).persisted :=
  (claim5_amended (fun i => { okEnv with sigAtStart := decide (2 ≤ i) })
    (fun _ => okFeeEnv) [5, 6, 7] [] false false
    (by decide) (fun _ => rfl) (by decide) (fun _ => rfl)).1
    6 2 1 (by decide) 5 (by decide) (by decide)

end BlockIngest
